import Mathlib

/-!
Verification development for the autostep workflow agent.

The definitions below are a shallow embedding of the Go sources:
* `internal/state` (the run-state store, file `part_002`),
* `internal/runner/runner.go` (the execution engine and its helpers).

Modelling conventions:
* Go `time.Time` is modelled as a `Nat` tick supplied explicitly to every
  store operation; the engine threads a strictly increasing clock.
  `time.Time.After` becomes `>` on `Nat`, and the Go zero time is `0`.
* The Go `map[string]*RunRecord` is modelled as an association list with
  value semantics; iteration order (unspecified for Go maps) is list order.
* A Go slice-index panic is modelled by the explicit `SRes.panic` result:
  the process dies and the durable state file is not rewritten, so no
  resulting store state is produced.
* Durable persistence (`persistLocked`) always succeeds in this model;
  the claims under study do not concern persistence failures.
* The operating-system side of action handlers is abstracted as an oracle
  (`OS`) producing success or failure, matching the action-capability
  boundary; the reboot handler's store interaction is embedded exactly.
-/

namespace Autostep

/-! ### String helpers (Go `strings.ToLower` / `strings.TrimSpace`),
restricted to the ASCII / Latin-1 range, which covers every token the
code compares against. -/

def asciiLower (c : Char) : Char :=
  if 'A' ≤ c ∧ c ≤ 'Z' then Char.ofNat (c.toNat + 32) else c

def lowerStr (s : String) : String :=
  ⟨s.data.map asciiLower⟩

def goIsSpace (c : Char) : Bool :=
  c = ' ' || c = '\t' || c = '\n' || c = (Char.ofNat 11) || c = (Char.ofNat 12) ||
  c = '\r' || c = (Char.ofNat 0x85) || c = (Char.ofNat 0xA0)

def trimSpace (s : String) : String :=
  ⟨((s.data.dropWhile goIsSpace).reverse.dropWhile goIsSpace).reverse⟩

/-! ### Run-state store data model (`internal/state`, `part_002`) -/

/-- `StepRecord` from `part_002`: per-step status. The Go zero value is
`⟨"", "", ""⟩`. -/
structure StepRecord where
  stepID : String
  status : String
  error : String
  deriving Repr, DecidableEq, Inhabited

/-- `RunRecord` from `part_002`. `pendingRebootNext` is `*int` in Go,
modelled here with value semantics as `Option Int` (the pointer-sharing
behaviour of `Export` is modelled separately, see `PtrRunRecord`). -/
structure RunRecord where
  runID : String
  workflowName : String
  status : String
  startedAt : Nat
  updatedAt : Nat
  currentStepIndex : Int
  pendingRebootNext : Option Int
  pendingBootMode : String
  steps : List StepRecord
  lastError : String
  resumeDelaySeconds : Int
  totalSteps : Nat
  deriving Repr, DecidableEq, Inhabited

/-- Run status constants from `part_002`. -/
def StatusPending : String := "pending"
def StatusRunning : String := "running"
def StatusCompleted : String := "completed"
def StatusFailed : String := "failed"
def StatusPendingReboot : String := "pending_reboot"

/-- The in-memory run map `map[string]*RunRecord`, as an association list. -/
abbrev StoreState := List (String × RunRecord)

def lookupRun : StoreState → String → Option RunRecord
  | [], _ => none
  | kv :: rest, id => if kv.1 = id then some kv.2 else lookupRun rest id

/-- Update the record stored under an existing key (Go map assignment to a
key that is present; the store only assigns through a looked-up pointer). -/
def setRun (s : StoreState) (id : String) (r : RunRecord) : StoreState :=
  s.map (fun kv => if kv.1 = id then (id, r) else kv)

/-- Result of a store operation: normal return, error return (carrying the
store state, which every error path leaves unchanged), or a runtime panic
(out-of-bounds slice index; the process dies, no state survives). -/
inductive SRes where
  | ok (s : StoreState)
  | err (msg : String) (s : StoreState)
  | panic
  deriving Repr, DecidableEq

/-- `isTerminal` describes the statuses pruned by `pruneHistoryLocked`. -/
def isTerminal (r : RunRecord) : Bool :=
  r.status = StatusCompleted || r.status = StatusFailed

/-- First loop of `pruneHistoryLocked`: fold computing `latestKey` and
`latestTime`, starting from `("", zero time)`, with the source's condition
`v.UpdatedAt.After(latestTime) || latestKey == ""`. -/
def findLatest : List (String × RunRecord) → String → Nat → String × Nat
  | [], lk, lt => (lk, lt)
  | (k, v) :: rest, lk, lt =>
    if isTerminal v ∧ (v.updatedAt > lt ∨ lk = "") then
      findLatest rest k v.updatedAt
    else
      findLatest rest lk lt

/-- `pruneHistoryLocked` from `part_002`: keep non-terminal records, and
among terminal records keep only the one whose key the first loop selected. -/
def pruneHistory (s : StoreState) : StoreState :=
  let lk := (findLatest s "" 0).1
  s.filter (fun kv => !(isTerminal kv.2) || kv.1 == lk)

/-- `StartRun` from `part_002`. `totalSteps` arrives as `len(wf.Steps)`,
hence a `Nat`; the pre-allocated steps are Go zero values. -/
def startRun (s : StoreState) (t : Nat) (runID workflowName : String)
    (totalSteps : Nat) : SRes :=
  if (lookupRun s runID).isSome then
    .err ("run " ++ runID ++ " already exists") s
  else
    .ok (s ++ [(runID,
      { runID := runID
        workflowName := workflowName
        status := StatusRunning
        startedAt := t
        updatedAt := t
        currentStepIndex := 0
        pendingRebootNext := none
        pendingBootMode := ""
        steps := List.replicate totalSteps default
        lastError := ""
        resumeDelaySeconds := 0
        totalSteps := totalSteps })])

/-- `MarkStepPending` from `part_002`. The Go code performs
`rec.Steps[stepIndex] = ...` with no bounds check: an out-of-range index
panics (modelled as `SRes.panic`). -/
def markStepPending (s : StoreState) (t : Nat) (runID : String)
    (stepIndex : Int) (stepID : String) : SRes :=
  match lookupRun s runID with
  | none => .err ("run " ++ runID ++ " not found") s
  | some rec =>
    if 0 ≤ stepIndex ∧ stepIndex < (rec.steps.length : Int) then
      .ok (setRun s runID
        { rec with
          status := StatusRunning
          currentStepIndex := stepIndex
          updatedAt := t
          steps := rec.steps.set stepIndex.toNat
            { stepID := stepID, status := StatusPending, error := "" } })
    else .panic

/-- `MarkStepComplete` from `part_002` (reads the existing `StepID`,
rewrites the step record, updates `CurrentStepIndex`; no bounds check). -/
def markStepComplete (s : StoreState) (t : Nat) (runID : String)
    (stepIndex : Int) : SRes :=
  match lookupRun s runID with
  | none => .err ("run " ++ runID ++ " not found") s
  | some rec =>
    if 0 ≤ stepIndex ∧ stepIndex < (rec.steps.length : Int) then
      .ok (setRun s runID
        { rec with
          steps := rec.steps.set stepIndex.toNat
            { stepID := (rec.steps.getD stepIndex.toNat default).stepID
              status := StatusCompleted, error := "" }
          currentStepIndex := stepIndex
          updatedAt := t })
    else .panic

/-- `MarkStepFailed` from `part_002`: failed step record, run status
`failed`, `LastError`, then history pruning. Note that the reboot
bookkeeping fields are not touched. No bounds check. -/
def markStepFailed (s : StoreState) (t : Nat) (runID : String)
    (stepIndex : Int) (errMsg : String) : SRes :=
  match lookupRun s runID with
  | none => .err ("run " ++ runID ++ " not found") s
  | some rec =>
    if 0 ≤ stepIndex ∧ stepIndex < (rec.steps.length : Int) then
      .ok (pruneHistory (setRun s runID
        { rec with
          steps := rec.steps.set stepIndex.toNat
            { stepID := (rec.steps.getD stepIndex.toNat default).stepID
              status := StatusFailed, error := errMsg }
          status := StatusFailed
          lastError := errMsg
          updatedAt := t }))
    else .panic

/-- `MarkPendingReboot` from `part_002`. -/
def markPendingReboot (s : StoreState) (t : Nat) (runID : String)
    (nextStep : Int) (bootMode : String) (delaySeconds : Int) : SRes :=
  match lookupRun s runID with
  | none => .err ("run " ++ runID ++ " not found") s
  | some rec =>
    .ok (setRun s runID
      { rec with
        status := StatusPendingReboot
        pendingRebootNext := some nextStep
        pendingBootMode := bootMode
        resumeDelaySeconds := delaySeconds
        updatedAt := t })

/-- `ClearPendingReboot` from `part_002`. -/
def clearPendingReboot (s : StoreState) (t : Nat) (runID : String) : SRes :=
  match lookupRun s runID with
  | none => .err ("run " ++ runID ++ " not found") s
  | some rec =>
    .ok (setRun s runID
      { rec with
        status := StatusRunning
        pendingRebootNext := none
        pendingBootMode := ""
        resumeDelaySeconds := 0
        updatedAt := t })

/-- `MarkRunCompleted` from `part_002`: status `completed`, then pruning. -/
def markRunCompleted (s : StoreState) (t : Nat) (runID : String) : SRes :=
  match lookupRun s runID with
  | none => .err ("run " ++ runID ++ " not found") s
  | some rec =>
    .ok (pruneHistory (setRun s runID
      { rec with status := StatusCompleted, updatedAt := t }))

/-! ### Store operations as a labelled transition system (for the
invariant claims, which quantify over sequences of operations). -/

/-- One store operation together with its arguments and the time at which
it runs. -/
inductive StoreOp where
  | opStartRun (t : Nat) (runID workflowName : String) (totalSteps : Nat)
  | opMarkStepPending (t : Nat) (runID : String) (idx : Int) (stepID : String)
  | opMarkStepComplete (t : Nat) (runID : String) (idx : Int)
  | opMarkStepFailed (t : Nat) (runID : String) (idx : Int) (msg : String)
  | opMarkPendingReboot (t : Nat) (runID : String) (next : Int)
      (bootMode : String) (delay : Int)
  | opClearPendingReboot (t : Nat) (runID : String)
  | opMarkRunCompleted (t : Nat) (runID : String)
  deriving Repr, DecidableEq

def applyOp (s : StoreState) : StoreOp → SRes
  | .opStartRun t rid wn n => startRun s t rid wn n
  | .opMarkStepPending t rid i sid => markStepPending s t rid i sid
  | .opMarkStepComplete t rid i => markStepComplete s t rid i
  | .opMarkStepFailed t rid i m => markStepFailed s t rid i m
  | .opMarkPendingReboot t rid nx bm d => markPendingReboot s t rid nx bm d
  | .opClearPendingReboot t rid => clearPendingReboot s t rid
  | .opMarkRunCompleted t rid => markRunCompleted s t rid

/-- Apply a list of operations from a starting state, stopping at the
first error or panic (errors leave the state unchanged, so stopping at
them loses nothing). -/
def applyOps (s : StoreState) : List StoreOp → SRes
  | [] => .ok s
  | op :: rest =>
    match applyOp s op with
    | .ok s' => applyOps s' rest
    | .err m s' => .err m s'
    | .panic => .panic

/-- Side condition matching how the engine invokes `MarkPendingReboot`:
`handleReboot` always passes boot mode `"normal"` or `"safe"`, never the
empty string. -/
def goodOp : StoreOp → Prop
  | .opMarkPendingReboot _ _ _ bm _ => bm ≠ ""
  | _ => True

/-- States reachable from the empty store by successful operations whose
arguments satisfy `goodOp` (error returns leave the state unchanged, and a
panic kills the process, so only `ok` transitions matter). -/
inductive Reachable : StoreState → Prop where
  | init : Reachable []
  | step {s s' : StoreState} {op : StoreOp} :
      Reachable s → goodOp op → applyOp s op = .ok s' → Reachable s'

/-- Run ids are pairwise distinct (always true of a Go map). -/
def keysNodup (s : StoreState) : Prop := (s.map Prod.fst).Nodup

/-! ### Execution engine (`internal/runner/runner.go`) -/

/-- The step fields the engine core reads (`workflow.Step` is supplied by
the external loader; the remaining action parameters are opaque to the
engine and live behind the `OS` oracle). -/
structure Step where
  id : String
  action : String
  safeMode : Bool
  resumeDelaySeconds : Int
  deriving Repr, DecidableEq, Inhabited

structure Workflow where
  name : String
  steps : List Step
  deriving Repr, DecidableEq, Inhabited

/-- Outcome of an OS-boundary call (an action handler body, or
`actions.RequestReboot`). -/
inductive ActionResult where
  | success
  | failure (msg : String)
  deriving Repr, DecidableEq

/-- The action-capability boundary: outcomes of the non-reboot handlers
and of the OS reboot request. -/
structure OS where
  exec : Step → ActionResult
  requestReboot : Bool → ActionResult

/-- The action tags recognised by `execStep`'s switch, other than
`"reboot"` (which is handled by `handleReboot` and touches the store). -/
def knownNonRebootActions : List String :=
  ["file_copy", "file_rename", "file_delete", "file_exists",
   "registry_set", "registry_delete", "registry_save", "registry_restore",
   "registry_load", "registry_unload", "registry_append", "registry_equals",
   "service_start", "service_stop", "service_running",
   "driver_load", "driver_unload", "driver_loaded",
   "verify", "run", "sleep", "safeboot"]

/-- Dispatch of a non-reboot step: a recognised tag runs its handler
(whose OS-side outcome the oracle supplies); an unrecognised tag is the
`unknown action` validation error from `execStep`'s default case. -/
def dispatch (os : OS) (step : Step) : ActionResult :=
  if lowerStr step.action ∈ knownNonRebootActions then os.exec step
  else .failure ("unknown action \"" ++ step.action ++ "\"")

/-- How `runFromIndex` classifies the value returned by `execStep`. -/
inductive StepOutcome where
  | ok
  | rebooting
  | failed (msg : String)
  deriving Repr, DecidableEq

/-- `execStep` from `runner.go`: the `"reboot"` case is `handleReboot`
(which records the pending reboot in the store, then asks the OS to
restart, then returns the `ErrRebooting` sentinel); every other case
dispatches to its handler. Returns the store, the advanced clock and the
classified outcome. -/
def execStep (os : OS) (s : StoreState) (t : Nat) (runID : String)
    (idx : Nat) (step : Step) : StoreState × Nat × StepOutcome :=
  if lowerStr step.action = "reboot" then
    let bootMode := if step.safeMode then "safe" else "normal"
    match markPendingReboot s t runID ((idx : Int) + 1) bootMode
        step.resumeDelaySeconds with
    | .ok s' =>
      match os.requestReboot step.safeMode with
      | .success => (s', t + 1, .rebooting)
      | .failure msg => (s', t + 1, .failed msg)
    | .err m s' => (s', t + 1, .failed m)
    | .panic => (s, t + 1, .failed "unreachable")
  else
    match dispatch os step with
    | .success => (s, t, .ok)
    | .failure msg => (s, t, .failed msg)

/-- Result of an engine entry point: the Go `error` return, paired with
the store state left behind. -/
inductive ERes where
  | ok (s : StoreState)
  | err (msg : String) (s : StoreState)
  | panic
  deriving Repr, DecidableEq

/-- The loop of `runFromIndex` from `runner.go`, operating on the suffix
of the workflow's steps starting at index `idx`; an empty suffix is the
loop exit, which marks the run completed. -/
def runSteps (os : OS) (runID : String) :
    List Step → Nat → StoreState → Nat → ERes
  | [], _, s, t =>
    match markRunCompleted s t runID with
    | .ok s' => .ok s'
    | .err m s' => .err m s'
    | .panic => .panic
  | step :: rest, idx, s, t =>
    match markStepPending s t runID (idx : Int) step.id with
    | .err m s' => .err ("mark step pending: " ++ m) s'
    | .panic => .panic
    | .ok s1 =>
      let (s2, t2, out) := execStep os s1 (t + 1) runID idx step
      match out with
      | .rebooting =>
        match markStepComplete s2 t2 runID (idx : Int) with
        | .ok s3 => .ok s3
        | .err m s' => .err ("mark step complete after reboot: " ++ m) s'
        | .panic => .panic
      | .failed msg =>
        match markStepFailed s2 t2 runID (idx : Int) msg with
        | .ok s3 => .err msg s3
        | .err _ s3 => .err msg s3
        | .panic => .panic
      | .ok =>
        match markStepComplete s2 t2 runID (idx : Int) with
        | .ok s3 => runSteps os runID rest (idx + 1) s3 (t2 + 1)
        | .err m s' => .err ("mark step complete: " ++ m) s'
        | .panic => .panic

/-- `runFromIndex(runID, wf, start)` from `runner.go`. -/
def runFromIndex (os : OS) (runID : String) (wf : Workflow) (start : Nat)
    (s : StoreState) (t : Nat) : ERes :=
  runSteps os runID (wf.steps.drop start) start s t

/-- `RunWorkflow` from `runner.go`: `StartRun` then execute from index 0. -/
def runWorkflow (os : OS) (runID : String) (wf : Workflow)
    (s : StoreState) (t : Nat) : ERes :=
  match startRun s t runID wf.name wf.steps.length with
  | .ok s' => runFromIndex os runID wf 0 s' (t + 1)
  | .err m s' => .err ("start run: " ++ m) s'
  | .panic => .panic

/-- `ContinueWorkflow` from `runner.go`: range-check the start index,
clear the pending-reboot bookkeeping, resume. -/
def continueWorkflow (os : OS) (runID : String) (wf : Workflow)
    (startIndex : Int) (s : StoreState) (t : Nat) : ERes :=
  if startIndex < 0 ∨ (wf.steps.length : Int) ≤ startIndex then
    .err "start index out of range" s
  else
    match clearPendingReboot s t runID with
    | .ok s' => runFromIndex os runID wf startIndex.toNat s' (t + 1)
    | .err m s' => .err ("clear pending reboot: " ++ m) s'
    | .panic => .panic

/-! ### Loose-boolean interpretation (`expectedBool` in `runner.go`) -/

/-- The dynamic values an `expected` field can decode to (workflow files
are YAML/JSON; the decoder produces nil, bool, string, int, int64,
float64, or a composite value). `vfloat` carries a rational, which is
exact for every numeric literal a workflow file can contain. `vother`
stands for any other decoded type (list, map, ...), with a description of
the Go type as `%T` would print it. -/
inductive GoVal where
  | vnil
  | vbool (b : Bool)
  | vstr (s : String)
  | vint (n : Int)
  | vint64 (n : Int)
  | vfloat (q : ℚ)
  | vother (typeName : String)
  deriving Repr, DecidableEq

/-- `expectedBool` from `runner.go`, line for line: nil defaults to true;
booleans pass through; strings are trimmed, lowered and matched against
the eight tokens; `int`, `int64` and `float64` compare against zero; any
other type is a validation error. -/
def expectedBool : GoVal → Except String Bool
  | .vnil => .ok true
  | .vbool b => .ok b
  | .vstr s =>
    let tok := lowerStr (trimSpace s)
    if tok = "true" ∨ tok = "1" ∨ tok = "yes" ∨ tok = "on" then .ok true
    else if tok = "false" ∨ tok = "0" ∨ tok = "no" ∨ tok = "off" then .ok false
    else .error ("expected must be boolean-like, got \"" ++ s ++ "\"")
  | .vint n => .ok (decide (n ≠ 0))
  | .vint64 n => .ok (decide (n ≠ 0))
  | .vfloat q => .ok (decide (q ≠ 0))
  | .vother tn => .error ("expected must be bool/number/string, got " ++ tn)

/-! ### Search-root inference (`searchRoot` / `matchPaths` in `runner.go`)

The path functions model Go's `path/filepath` for the slash separator
(the separator value only renames one character throughout). Strings are
treated as rune sequences; every metacharacter is ASCII, and Go's byte
offset of a rune coincides with cutting the string before that rune. -/

/-- One backtracking step of `filepath.Clean`'s `..` handling: having just
removed `dropped`, keep removing characters from the (reversed) output
while the write index exceeds `dotdot` and the removed character is not a
separator. -/
def cleanBacktrack (dotdot : Nat) : List Char → Char → List Char
  | rev, dropped =>
    if rev.length > dotdot ∧ dropped ≠ '/' then
      match rev with
      | [] => []
      | d :: rest => cleanBacktrack dotdot rest d
    else rev

/-- The main loop of `filepath.Clean`, with the output kept in reverse.
`fuel` bounds the recursion (every iteration consumes at least one input
character, so `inp.length` fuel is always sufficient). -/
def cleanLoop (rooted : Bool) : Nat → List Char → List Char → Nat → List Char
  | 0, _, rev, _ => rev
  | _ + 1, [], rev, _ => rev
  | fuel + 1, '/' :: rest, rev, dd => cleanLoop rooted fuel rest rev dd
  | fuel + 1, '.' :: [], rev, dd => cleanLoop rooted fuel [] rev dd
  | fuel + 1, '.' :: '/' :: rest, rev, dd =>
    cleanLoop rooted fuel ('/' :: rest) rev dd
  | fuel + 1, '.' :: '.' :: rest, rev, dd =>
    if rest = [] ∨ rest.headD ' ' = '/' then
      -- a ".." path element
      if rev.length > dd then
        match rev with
        | [] => cleanLoop rooted fuel rest rev dd
        | d :: rev' => cleanLoop rooted fuel rest (cleanBacktrack dd rev' d) dd
      else if ¬ rooted then
        let sep : List Char := if rev.length > 0 then ['/'] else []
        let rev' := '.' :: '.' :: (sep ++ rev)
        cleanLoop rooted fuel rest rev' rev'.length
      else cleanLoop rooted fuel rest rev dd
    else
      -- an ordinary element that merely starts with ".."
      let elemTail := rest.takeWhile (fun c => c ≠ '/')
      let remaining := rest.dropWhile (fun c => c ≠ '/')
      let sep : List Char :=
        if (rooted ∧ rev.length ≠ 1) ∨ (¬ rooted ∧ rev.length ≠ 0) then ['/']
        else []
      cleanLoop rooted fuel remaining
        (elemTail.reverse ++ '.' :: '.' :: (sep ++ rev)) dd
  | fuel + 1, c :: rest, rev, dd =>
    -- an ordinary path element starting at `c` (which is not a separator)
    let elemTail := rest.takeWhile (fun x => x ≠ '/')
    let remaining := rest.dropWhile (fun x => x ≠ '/')
    let sep : List Char :=
      if (rooted ∧ rev.length ≠ 1) ∨ (¬ rooted ∧ rev.length ≠ 0) then ['/']
      else []
    cleanLoop rooted fuel remaining (elemTail.reverse ++ c :: (sep ++ rev)) dd

/-- `filepath.Clean` (slash-separator form). -/
def clean (path : String) : String :=
  if path = "" then "." else
  let chars := path.data
  let rooted := chars.headD ' ' = '/'
  let rev := cleanLoop rooted (chars.length + 1) chars
    (if rooted then ['/'] else []) (if rooted then 1 else 0)
  if rev = [] then "." else ⟨rev.reverse⟩

/-- `filepath.Dir` (slash-separator form): everything up to and including
the final separator, cleaned; `Clean("")` is `"."` for separator-free
input. -/
def dirOf (p : String) : String :=
  clean ⟨((p.data.reverse.dropWhile (fun c => c ≠ '/')).reverse)⟩

/-- The metacharacter set from `searchRoot` in `runner.go`:
`"*+?[](){}|^$"`. -/
def metaChars : List Char :=
  ['*', '+', '?', '[', ']', '(', ')', '\x7b', '\x7d', '|', '^', '$']

/-- The scan in `searchRoot`: position of the first non-separator
metacharacter of the cleaned pattern (`-1` in Go becomes `none`). -/
def firstMetaIdx : List Char → Nat → Option Nat
  | [], _ => none
  | c :: rest, i =>
    if c = '/' then firstMetaIdx rest (i + 1)
    else if c ∈ metaChars then some i
    else firstMetaIdx rest (i + 1)

/-- `searchRoot` from `runner.go`. -/
def searchRoot (pattern : String) : String :=
  let cleaned := clean pattern
  match firstMetaIdx cleaned.data 0 with
  | none => dirOf cleaned
  | some i =>
    let pre : String := ⟨cleaned.data.take i⟩
    if pre = "" then "/" else dirOf pre

/-- The walk root `matchPaths` actually uses: `searchRoot`, with `"."`
substituted if it were empty. -/
def walkRoot (pattern : String) : String :=
  let root := searchRoot pattern
  if root = "" then "." else root

/-! ### Pointer-level model of `Export` (`part_002` lines 89–100)

`Export` copies each record with `clone := *v`, which copies the
`PendingRebootNext *int` field as a pointer (an address), and then
replaces only the `Steps` slice by a fresh copy. To express what the
caller can reach through that shared pointer, this model makes the
pointed-to cells explicit as a heap of `Int` cells addressed by `Nat`. -/

abbrev Heap := List Int

def heapRead (h : Heap) (a : Nat) : Option Int := h.get? a

def heapWrite (h : Heap) (a : Nat) (v : Int) : Heap := h.set a v

/-- A run record as `Export` sees it: `pendingRebootNext` holds the
address of the `int` cell (or `none` for a nil pointer). Fields that are
plain Go values are elided; they are copied correctly and are not at
issue. -/
structure PtrRunRecord where
  runID : String
  status : String
  pendingRebootNext : Option Nat
  steps : List StepRecord
  deriving Repr, DecidableEq

/-- The per-record clone `Export` performs: a struct copy (`clone := *v`,
so `pendingRebootNext` copies the address) followed by
`clone.Steps = append([]StepRecord(nil), v.Steps...)` (a fresh slice with
the same elements). -/
def exportRecord (r : PtrRunRecord) : PtrRunRecord :=
  { r with steps := r.steps.map (fun x => x) }

/-- What the store (or anyone) observes through a record's
`PendingRebootNext` pointer. -/
def readNext (h : Heap) (r : PtrRunRecord) : Option Int :=
  r.pendingRebootNext.bind (heapRead h)

/-- A caller mutating `*rec.PendingRebootNext` on a record handed out by
`Export`. -/
def callerWriteNext (h : Heap) (r : PtrRunRecord) (v : Int) : Heap :=
  match r.pendingRebootNext with
  | some a => heapWrite h a v
  | none => h

/-! ### Basic lemmas about the store representation -/

theorem lookupRun_mem {s : StoreState} {id : String} {rec : RunRecord}
    (h : lookupRun s id = some rec) : (id, rec) ∈ s := by
  induction s with
  | nil => simp [lookupRun] at h
  | cons kv rest ih =>
    by_cases hc : kv.1 = id
    · rw [lookupRun, if_pos hc] at h
      obtain ⟨k, v⟩ := kv
      obtain rfl : v = rec := by exact Option.some.inj h
      obtain rfl : k = id := hc
      exact List.mem_cons_self _ _
    · rw [lookupRun, if_neg hc] at h
      exact List.mem_cons_of_mem _ (ih h)

theorem lookupRun_eq_of_mem_nodup {s : StoreState} (hnd : keysNodup s)
    {id : String} {rec : RunRecord} (h : (id, rec) ∈ s) :
    lookupRun s id = some rec := by
  induction s with
  | nil => cases h
  | cons kv rest ih =>
    have hnd' : keysNodup rest := (List.nodup_cons.1 hnd).2
    have hhead : kv.1 ∉ rest.map Prod.fst := (List.nodup_cons.1 hnd).1
    rcases List.mem_cons.1 h with h1 | h1
    · rw [← h1, lookupRun, if_pos rfl]
    · have hne : kv.1 ≠ id := by
        intro he
        exact hhead (he ▸ (List.mem_map.2 ⟨(id, rec), h1, rfl⟩))
      rw [lookupRun, if_neg hne]
      exact ih hnd' h1

theorem lookupRun_append_left {s : StoreState} {id : String} {rec : RunRecord}
    (l : StoreState) (h : lookupRun s id = some rec) :
    lookupRun (s ++ l) id = some rec := by
  induction s with
  | nil => simp [lookupRun] at h
  | cons kv rest ih =>
    by_cases hc : kv.1 = id
    · rw [lookupRun, if_pos hc] at h
      rw [List.cons_append, lookupRun, if_pos hc]
      exact h
    · rw [lookupRun, if_neg hc] at h
      rw [List.cons_append, lookupRun, if_neg hc]
      exact ih h

theorem lookupRun_append_of_none {s : StoreState} {id : String}
    (l : StoreState) (h : lookupRun s id = none) :
    lookupRun (s ++ l) id = lookupRun l id := by
  induction s with
  | nil => rfl
  | cons kv rest ih =>
    by_cases hc : kv.1 = id
    · rw [lookupRun, if_pos hc] at h
      cases h
    · rw [lookupRun, if_neg hc] at h
      rw [List.cons_append, lookupRun, if_neg hc]
      exact ih h

theorem lookupRun_setRun_self {s : StoreState} {id : String}
    {rec r : RunRecord} (h : lookupRun s id = some rec) :
    lookupRun (setRun s id r) id = some r := by
  induction s with
  | nil => simp [lookupRun] at h
  | cons kv rest ih =>
    by_cases hc : kv.1 = id
    · rw [setRun, List.map_cons, if_pos hc, lookupRun, if_pos rfl]
    · rw [lookupRun, if_neg hc] at h
      rw [setRun, List.map_cons, if_neg hc, lookupRun, if_neg hc]
      exact ih h

theorem lookupRun_setRun_ne {s : StoreState} {id id' : String}
    {r : RunRecord} (h : id' ≠ id) :
    lookupRun (setRun s id r) id' = lookupRun s id' := by
  induction s with
  | nil => rfl
  | cons kv rest ih =>
    by_cases hc : kv.1 = id
    · have : ¬ ((id, r).1 = id') := fun he => h he.symm
      rw [setRun, List.map_cons, if_pos hc, lookupRun, if_neg this]
      have : ¬ (kv.1 = id') := fun he => h (by rw [← he, hc])
      rw [lookupRun, if_neg this]
      exact ih
    · rw [setRun, List.map_cons, if_neg hc]
      by_cases hc' : kv.1 = id'
      · rw [lookupRun, if_pos hc', lookupRun, if_pos hc']
      · rw [lookupRun, if_neg hc', lookupRun, if_neg hc']
        exact ih

theorem mem_setRun {s : StoreState} {id : String} {r : RunRecord}
    {kv : String × RunRecord} (h : kv ∈ setRun s id r) :
    kv = (id, r) ∨ kv ∈ s := by
  unfold setRun at h
  rcases List.mem_map.1 h with ⟨kv₀, hkv₀, heq⟩
  by_cases hc : kv₀.1 = id
  · rw [if_pos hc] at heq
    exact Or.inl heq.symm
  · rw [if_neg hc] at heq
    exact Or.inr (heq ▸ hkv₀)

theorem mem_pruneHistory {s : StoreState} {kv : String × RunRecord}
    (h : kv ∈ pruneHistory s) : kv ∈ s :=
  List.mem_of_mem_filter h

/-! ### Inversion lemmas for successful store operations -/

/-- The record `StartRun` creates. -/
def freshRun (t : Nat) (runID workflowName : String) (totalSteps : Nat) :
    RunRecord :=
  { runID := runID, workflowName := workflowName, status := StatusRunning,
    startedAt := t, updatedAt := t, currentStepIndex := 0,
    pendingRebootNext := none, pendingBootMode := "",
    steps := List.replicate totalSteps default, lastError := "",
    resumeDelaySeconds := 0, totalSteps := totalSteps }

theorem startRun_ok_inv {s s' : StoreState} {t : Nat} {rid wn : String}
    {n : Nat} (h : startRun s t rid wn n = .ok s') :
    lookupRun s rid = none ∧ s' = s ++ [(rid, freshRun t rid wn n)] := by
  unfold startRun at h
  by_cases hx : (lookupRun s rid).isSome
  · rw [if_pos hx] at h; cases h
  · rw [if_neg hx] at h
    exact ⟨Option.not_isSome_iff_eq_none.1 hx, (SRes.ok.inj h).symm⟩

theorem markStepPending_ok_inv {s s' : StoreState} {t : Nat}
    {rid sid : String} {i : Int} (h : markStepPending s t rid i sid = .ok s') :
    ∃ rec, lookupRun s rid = some rec ∧ 0 ≤ i ∧ i < (rec.steps.length : Int) ∧
      s' = setRun s rid
        { rec with
          status := StatusRunning, currentStepIndex := i, updatedAt := t,
          steps := rec.steps.set i.toNat
            { stepID := sid, status := StatusPending, error := "" } } := by
  unfold markStepPending at h
  split at h
  next => cases h
  next rec heq =>
    split at h
    next hb => exact ⟨rec, heq, hb.1, hb.2, (SRes.ok.inj h).symm⟩
    next hb => cases h

theorem markStepComplete_ok_inv {s s' : StoreState} {t : Nat}
    {rid : String} {i : Int} (h : markStepComplete s t rid i = .ok s') :
    ∃ rec, lookupRun s rid = some rec ∧ 0 ≤ i ∧ i < (rec.steps.length : Int) ∧
      s' = setRun s rid
        { rec with
          steps := rec.steps.set i.toNat
            { stepID := (rec.steps.getD i.toNat default).stepID
              status := StatusCompleted, error := "" }
          currentStepIndex := i, updatedAt := t } := by
  unfold markStepComplete at h
  split at h
  next => cases h
  next rec heq =>
    split at h
    next hb => exact ⟨rec, heq, hb.1, hb.2, (SRes.ok.inj h).symm⟩
    next hb => cases h

theorem markStepFailed_ok_inv {s s' : StoreState} {t : Nat}
    {rid msg : String} {i : Int} (h : markStepFailed s t rid i msg = .ok s') :
    ∃ rec, lookupRun s rid = some rec ∧ 0 ≤ i ∧ i < (rec.steps.length : Int) ∧
      s' = pruneHistory (setRun s rid
        { rec with
          steps := rec.steps.set i.toNat
            { stepID := (rec.steps.getD i.toNat default).stepID
              status := StatusFailed, error := msg }
          status := StatusFailed, lastError := msg, updatedAt := t }) := by
  unfold markStepFailed at h
  split at h
  next => cases h
  next rec heq =>
    split at h
    next hb => exact ⟨rec, heq, hb.1, hb.2, (SRes.ok.inj h).symm⟩
    next hb => cases h

theorem markPendingReboot_ok_inv {s s' : StoreState} {t : Nat}
    {rid bm : String} {nx d : Int}
    (h : markPendingReboot s t rid nx bm d = .ok s') :
    ∃ rec, lookupRun s rid = some rec ∧
      s' = setRun s rid
        { rec with
          status := StatusPendingReboot, pendingRebootNext := some nx,
          pendingBootMode := bm, resumeDelaySeconds := d, updatedAt := t } := by
  unfold markPendingReboot at h
  split at h
  next => cases h
  next rec heq => exact ⟨rec, heq, (SRes.ok.inj h).symm⟩

theorem clearPendingReboot_ok_inv {s s' : StoreState} {t : Nat}
    {rid : String} (h : clearPendingReboot s t rid = .ok s') :
    ∃ rec, lookupRun s rid = some rec ∧
      s' = setRun s rid
        { rec with
          status := StatusRunning, pendingRebootNext := none,
          pendingBootMode := "", resumeDelaySeconds := 0, updatedAt := t } := by
  unfold clearPendingReboot at h
  split at h
  next => cases h
  next rec heq => exact ⟨rec, heq, (SRes.ok.inj h).symm⟩

theorem markRunCompleted_ok_inv {s s' : StoreState} {t : Nat}
    {rid : String} (h : markRunCompleted s t rid = .ok s') :
    ∃ rec, lookupRun s rid = some rec ∧
      s' = pruneHistory (setRun s rid
        { rec with status := StatusCompleted, updatedAt := t }) := by
  unfold markRunCompleted at h
  split at h
  next => cases h
  next rec heq => exact ⟨rec, heq, (SRes.ok.inj h).symm⟩

/-! ### Concrete values used by witnesses and counterexamples -/

/-- A concrete two-step `running` record. -/
def recW : RunRecord :=
  { runID := "r", workflowName := "w", status := StatusRunning,
    startedAt := 0, updatedAt := 0, currentStepIndex := 0,
    pendingRebootNext := none, pendingBootMode := "",
    steps := List.replicate 2 default, lastError := "",
    resumeDelaySeconds := 0, totalSteps := 2 }

/-- A concrete `completed` record still carrying reboot bookkeeping. -/
def recDone : RunRecord :=
  { recW with
    status := StatusCompleted, pendingRebootNext := some 1,
    pendingBootMode := "safe", resumeDelaySeconds := 9, updatedAt := 4 }

/-! ### Claim C4 -/

/-- C4: for every store state in which the run id is already present,
`StartRun` with that id fails with an "already exists" error, and the
store (hence the existing record and every other record) is returned
unchanged. -/
theorem startRun_existing_id_fails (s : StoreState) (t : Nat)
    (runID workflowName : String) (totalSteps : Nat) (rec : RunRecord)
    (h : lookupRun s runID = some rec) :
    startRun s t runID workflowName totalSteps =
      .err ("run " ++ runID ++ " already exists") s := by
  unfold startRun
  rw [h]
  rfl

theorem startRun_existing_id_fails_witness :
    startRun [("r", recW)] 5 "r" "w2" 4 =
      .err ("run " ++ "r" ++ " already exists") [("r", recW)] :=
  startRun_existing_id_fails [("r", recW)] 5 "r" "w2" 4 recW (by decide)

/-! ### Claim C10 -/

/-- C10: `ClearPendingReboot` has no status precondition: whenever the
run id is present — whatever the record's status, including `completed`
or `failed` — the call succeeds, sets the status to `running`, clears
`pending_reboot_next`, `pending_boot_mode` and the resume delay, leaves
the rest of the record and all other records unchanged; it fails with a
not-found error exactly when the run id is absent. -/
theorem clearPendingReboot_spec (s : StoreState) (t : Nat) (runID : String) :
    (∀ rec, lookupRun s runID = some rec →
      ∃ s' rec', clearPendingReboot s t runID = .ok s'
        ∧ lookupRun s' runID = some rec'
        ∧ rec'.status = StatusRunning
        ∧ rec'.pendingRebootNext = none
        ∧ rec'.pendingBootMode = ""
        ∧ rec'.resumeDelaySeconds = 0
        ∧ rec'.steps = rec.steps
        ∧ rec'.currentStepIndex = rec.currentStepIndex
        ∧ rec'.lastError = rec.lastError
        ∧ (∀ id', id' ≠ runID → lookupRun s' id' = lookupRun s id'))
    ∧ (lookupRun s runID = none →
      clearPendingReboot s t runID = .err ("run " ++ runID ++ " not found") s) := by
  constructor
  · intro rec h
    have e : clearPendingReboot s t runID = .ok (setRun s runID
        { rec with
          status := StatusRunning, pendingRebootNext := none,
          pendingBootMode := "", resumeDelaySeconds := 0, updatedAt := t }) := by
      unfold clearPendingReboot
      rw [h]
    exact ⟨_, _, e, lookupRun_setRun_self h, rfl, rfl, rfl, rfl, rfl, rfl, rfl,
      fun id' hne => lookupRun_setRun_ne hne⟩
  · intro h
    unfold clearPendingReboot
    rw [h]

theorem clearPendingReboot_spec_witness :
    ∃ s' rec', clearPendingReboot [("r", recDone)] 7 "r" = .ok s'
      ∧ lookupRun s' "r" = some rec'
      ∧ rec'.status = StatusRunning
      ∧ rec'.pendingRebootNext = none
      ∧ rec'.pendingBootMode = ""
      ∧ rec'.resumeDelaySeconds = 0
      ∧ rec'.steps = recDone.steps
      ∧ rec'.currentStepIndex = recDone.currentStepIndex
      ∧ rec'.lastError = recDone.lastError
      ∧ (∀ id', id' ≠ "r" → lookupRun s' id' = lookupRun [("r", recDone)] id') :=
  (clearPendingReboot_spec [("r", recDone)] 7 "r").1 recDone (by decide)

/-! ### Claim C7 -/

/-- C7 is refuted on the code: with an existing run and an out-of-range
step index, `MarkStepComplete` does not return a not-found error — it
performs an unchecked slice index, i.e. it crashes. -/
theorem stepOps_out_of_range_cex :
    markStepComplete [("r", recW)] 9 "r" 5 = .panic
    ∧ markStepComplete [("r", recW)] 9 "r" 5 ≠
        .err ("run " ++ "r" ++ " not found") [("r", recW)] := by
  decide

/-- C7 (amended): the step-mutating operations reject an unknown run id
with a not-found error before any mutation (the store is returned
unchanged); but an out-of-range step index on an existing run is not
checked: the unchecked slice index panics (process crash, no durable
write) instead of returning an error. -/
theorem stepOps_out_of_range (s : StoreState) (t : Nat) (runID : String)
    (idx : Int) (stepID msg : String) :
    (lookupRun s runID = none →
      markStepPending s t runID idx stepID =
          .err ("run " ++ runID ++ " not found") s
      ∧ markStepComplete s t runID idx =
          .err ("run " ++ runID ++ " not found") s
      ∧ markStepFailed s t runID idx msg =
          .err ("run " ++ runID ++ " not found") s)
    ∧ (∀ rec, lookupRun s runID = some rec →
      ¬ (0 ≤ idx ∧ idx < (rec.steps.length : Int)) →
      markStepPending s t runID idx stepID = .panic
      ∧ markStepComplete s t runID idx = .panic
      ∧ markStepFailed s t runID idx msg = .panic) := by
  constructor
  · intro h
    refine ⟨?_, ?_, ?_⟩
    · unfold markStepPending; rw [h]
    · unfold markStepComplete; rw [h]
    · unfold markStepFailed; rw [h]
  · intro rec h hb
    refine ⟨?_, ?_, ?_⟩
    · unfold markStepPending; rw [h]; exact if_neg hb
    · unfold markStepComplete; rw [h]; exact if_neg hb
    · unfold markStepFailed; rw [h]; exact if_neg hb

theorem stepOps_out_of_range_witness :
    markStepPending [("r", recW)] 3 "r" 5 "sX" = .panic
    ∧ markStepComplete [("r", recW)] 3 "r" 5 = .panic
    ∧ markStepFailed [("r", recW)] 3 "r" 5 "m" = .panic :=
  (stepOps_out_of_range [("r", recW)] 3 "r" 5 "sX" "m").2 recW
    (by decide) (by decide)

/-! ### Claim C6 -/

/-- A record in `pending_reboot` whose `PendingRebootNext` pointer is the
heap cell at address 0. -/
def ptrRec : PtrRunRecord :=
  { runID := "r", status := StatusPendingReboot, pendingRebootNext := some 0,
    steps := [{ stepID := "a", status := StatusCompleted, error := "" }] }

/-- C6 (code bug): the record clone `Export` hands out shares the
`PendingRebootNext` pointer with the store-internal record. With the cell
at address 0 holding `2`, a caller writing `99` through the exported
record's pointer changes the value the store-internal record reads: the
exported records are not a deep copy and caller mutation reaches
store-internal state. -/
theorem export_shares_pendingRebootNext_pointer :
    (exportRecord ptrRec).pendingRebootNext = ptrRec.pendingRebootNext
    ∧ (exportRecord ptrRec).steps = ptrRec.steps
    ∧ readNext [2] ptrRec = some 2
    ∧ readNext (callerWriteNext [2] (exportRecord ptrRec) 99) ptrRec = some 99 := by
  decide

/-! ### Claim C9 -/

/-- C9: the loose-boolean interpretation is total over the decoded value
domain: nil defaults to true; booleans pass through; the eight string
tokens (after trimming and lowercasing) map to their boolean; `int`,
`int64` and `float64` values map to (value ≠ 0); every other string is a
validation error, and so is every other value type. -/
theorem expectedBool_total_spec :
    expectedBool .vnil = .ok true
    ∧ (∀ b, expectedBool (.vbool b) = .ok b)
    ∧ (∀ s, ((lowerStr (trimSpace s) = "true" ∨ lowerStr (trimSpace s) = "1" ∨
              lowerStr (trimSpace s) = "yes" ∨ lowerStr (trimSpace s) = "on") →
          expectedBool (.vstr s) = .ok true)
        ∧ ((lowerStr (trimSpace s) = "false" ∨ lowerStr (trimSpace s) = "0" ∨
              lowerStr (trimSpace s) = "no" ∨ lowerStr (trimSpace s) = "off") →
          expectedBool (.vstr s) = .ok false)
        ∧ (¬ (lowerStr (trimSpace s) = "true" ∨ lowerStr (trimSpace s) = "1" ∨
              lowerStr (trimSpace s) = "yes" ∨ lowerStr (trimSpace s) = "on") →
           ¬ (lowerStr (trimSpace s) = "false" ∨ lowerStr (trimSpace s) = "0" ∨
              lowerStr (trimSpace s) = "no" ∨ lowerStr (trimSpace s) = "off") →
          expectedBool (.vstr s) =
            .error ("expected must be boolean-like, got \"" ++ s ++ "\"")))
    ∧ (∀ n : Int, expectedBool (.vint n) = .ok (decide (n ≠ 0)))
    ∧ (∀ n : Int, expectedBool (.vint64 n) = .ok (decide (n ≠ 0)))
    ∧ (∀ q : ℚ, expectedBool (.vfloat q) = .ok (decide (q ≠ 0)))
    ∧ (∀ tn, expectedBool (.vother tn) =
        .error ("expected must be bool/number/string, got " ++ tn))
    ∧ expectedBool (.vstr "TRUE") = .ok true
    ∧ expectedBool (.vstr " yes ") = .ok true
    ∧ expectedBool (.vstr "on") = .ok true
    ∧ expectedBool (.vstr "1") = .ok true
    ∧ expectedBool (.vint 7) = .ok true
    ∧ expectedBool (.vfloat (5 / 2)) = .ok true
    ∧ expectedBool (.vstr "0") = .ok false
    ∧ expectedBool (.vstr "no") = .ok false
    ∧ expectedBool (.vstr "off") = .ok false
    ∧ expectedBool (.vstr "False") = .ok false
    ∧ expectedBool (.vint 0) = .ok false
    ∧ expectedBool (.vstr "maybe") =
        .error ("expected must be boolean-like, got \"maybe\"")
    ∧ expectedBool (.vother "[]interface \x7b\x7d") =
        .error ("expected must be bool/number/string, got []interface \x7b\x7d") := by
  refine ⟨rfl, fun b => rfl, fun s => ⟨?_, ?_, ?_⟩,
    fun n => rfl, fun n => rfl, fun q => rfl, fun tn => rfl,
    rfl, rfl, rfl, rfl, rfl, ?_,
    rfl, rfl, rfl, rfl, rfl, rfl, rfl⟩
  · intro h
    simp only [expectedBool]
    rw [if_pos h]
  · intro h
    have hne : ¬ (lowerStr (trimSpace s) = "true" ∨ lowerStr (trimSpace s) = "1" ∨
        lowerStr (trimSpace s) = "yes" ∨ lowerStr (trimSpace s) = "on") := by
      intro htrue
      rcases h with h | h | h | h <;> rcases htrue with h' | h' | h' | h' <;>
        rw [h] at h' <;> exact absurd h' (by decide)
    simp only [expectedBool]
    rw [if_neg hne, if_pos h]
  · intro h1 h2
    simp only [expectedBool]
    rw [if_neg h1, if_neg h2]
  · simp only [expectedBool]
    norm_num

theorem expectedBool_total_spec_witness :
    expectedBool (.vstr "  TRUE ") = .ok true
    ∧ expectedBool (.vstr "maybe") =
        .error ("expected must be boolean-like, got \"maybe\"") :=
  ⟨(expectedBool_total_spec.2.2.1 "  TRUE ").1 (by decide),
   ((expectedBool_total_spec.2.2.1 "maybe").2.2) (by decide) (by decide)⟩

/-! ### Claim C8 -/

/-- C8 is refuted on the code: for the pattern `*.log`, which has no
literal prefix, the inferred walk root is the filesystem root directory
(the separator string), not the current directory — `searchRoot` returns
`string(filepath.Separator)`, so `matchPaths`'s `root == ""` fallback to
`"."` never fires. -/
theorem searchRoot_star_log_cex :
    walkRoot "*.log" = "/" ∧ walkRoot "*.log" ≠ "." := by
  decide

/-- C8 (amended): the search-root inference takes the prefix of the
cleaned pattern before its first non-separator metacharacter (from the
set `*+?[](){}|^$`; a dot is literal) and walks from that prefix's parent
directory; but a pattern with no literal prefix (cleaned form starting
with a metacharacter) infers the filesystem root directory — the
separator string — as the walk root, not the current directory. The
spec's driver-pattern example does infer the `Drivers` directory. -/
theorem searchRoot_spec (p : String) (c : Char) (cs : List Char)
    (hc : (clean p).data = c :: cs) (hmeta : c ∈ metaChars) :
    walkRoot p = "/"
    ∧ walkRoot "/Drivers/.*\\.sys" = "/Drivers"
    ∧ searchRoot "*.log" = "/" := by
  refine ⟨?_, by decide, by decide⟩
  have hslash : ¬ c = '/' := by
    intro he
    rw [he] at hmeta
    exact absurd hmeta (by decide)
  have h0 : firstMetaIdx (clean p).data 0 = some 0 := by
    rw [hc, firstMetaIdx, if_neg hslash, if_pos hmeta]
  unfold walkRoot searchRoot
  simp [h0]

theorem searchRoot_spec_witness :
    walkRoot "*.log" = "/"
    ∧ walkRoot "/Drivers/.*\\.sys" = "/Drivers"
    ∧ searchRoot "*.log" = "/" :=
  searchRoot_spec "*.log" '*' ".log".data (by decide) (by decide)

/-! ### Claim C2 -/

/-- OS oracle whose handlers succeed but whose reboot request fails. -/
def osRebootFails : OS :=
  { exec := fun _ => .success,
    requestReboot := fun _ => .failure "reboot request failed" }

/-- A 3-step workflow whose middle step is a reboot step. -/
def wfReboot : Workflow :=
  { name := "w",
    steps :=
      [{ id := "s0", action := "sleep", safeMode := false, resumeDelaySeconds := 0 },
       { id := "s1", action := "reboot", safeMode := false, resumeDelaySeconds := 0 },
       { id := "s2", action := "sleep", safeMode := false, resumeDelaySeconds := 0 }] }

/-- The record left behind when `MarkPendingReboot` succeeds but the OS
reboot request fails and the engine then marks the step failed. -/
def c2Rec : RunRecord :=
  { runID := "r", workflowName := "w", status := StatusFailed,
    startedAt := 0, updatedAt := 5, currentStepIndex := 1,
    pendingRebootNext := some 2, pendingBootMode := "normal",
    steps := [{ stepID := "s0", status := StatusCompleted, error := "" },
              { stepID := "s1", status := StatusFailed, error := "reboot request failed" },
              { stepID := "", status := "", error := "" }],
    lastError := "reboot request failed", resumeDelaySeconds := 0,
    totalSteps := 3 }

/-- C2 is refuted on the code: running the reboot workflow with a failing
OS reboot request reaches (by engine operations alone, from the empty
store) a record with status `failed` whose `pending_reboot_next` and
`pending_boot_mode` are still set — `MarkStepFailed` does not clear the
reboot bookkeeping, so the claimed equivalence fails right-to-left. -/
theorem rebootFields_iff_cex :
    runWorkflow osRebootFails "r" wfReboot [] 0 =
      .err "reboot request failed" [("r", c2Rec)]
    ∧ lookupRun [("r", c2Rec)] "r" = some c2Rec
    ∧ ¬ (c2Rec.status = StatusPendingReboot ↔
        (c2Rec.pendingRebootNext.isSome ∧ c2Rec.pendingBootMode ≠ "")) := by
  decide

/-- The forward direction of the claimed invariant. -/
def rebootFieldsInv (s : StoreState) : Prop :=
  ∀ kv ∈ s, kv.2.status = StatusPendingReboot →
    kv.2.pendingRebootNext.isSome ∧ kv.2.pendingBootMode ≠ ""

theorem running_ne_pendingReboot : StatusRunning ≠ StatusPendingReboot := by decide

theorem failed_ne_pendingReboot : StatusFailed ≠ StatusPendingReboot := by decide

theorem completed_ne_pendingReboot : StatusCompleted ≠ StatusPendingReboot := by decide

theorem rebootFieldsInv_step {s s' : StoreState} {op : StoreOp}
    (hinv : rebootFieldsInv s) (hgood : goodOp op)
    (hok : applyOp s op = .ok s') : rebootFieldsInv s' := by
  cases op with
  | opStartRun t rid wn n =>
    obtain ⟨-, rfl⟩ := startRun_ok_inv hok
    intro kv hkv hst
    rcases List.mem_append.1 hkv with h | h
    · exact hinv kv h hst
    · rw [List.mem_singleton] at h
      subst h
      exact absurd hst running_ne_pendingReboot
  | opMarkStepPending t rid i sid =>
    obtain ⟨rec, hl, -, -, rfl⟩ := markStepPending_ok_inv hok
    intro kv hkv hst
    rcases mem_setRun hkv with h | h
    · subst h; exact absurd hst running_ne_pendingReboot
    · exact hinv kv h hst
  | opMarkStepComplete t rid i =>
    obtain ⟨rec, hl, -, -, rfl⟩ := markStepComplete_ok_inv hok
    intro kv hkv hst
    rcases mem_setRun hkv with h | h
    · subst h
      exact hinv (rid, rec) (lookupRun_mem hl) hst
    · exact hinv kv h hst
  | opMarkStepFailed t rid i m =>
    obtain ⟨rec, hl, -, -, rfl⟩ := markStepFailed_ok_inv hok
    intro kv hkv hst
    rcases mem_setRun (mem_pruneHistory hkv) with h | h
    · subst h; exact absurd hst failed_ne_pendingReboot
    · exact hinv kv h hst
  | opMarkPendingReboot t rid nx bm d =>
    obtain ⟨rec, hl, rfl⟩ := markPendingReboot_ok_inv hok
    intro kv hkv hst
    rcases mem_setRun hkv with h | h
    · subst h; exact ⟨rfl, hgood⟩
    · exact hinv kv h hst
  | opClearPendingReboot t rid =>
    obtain ⟨rec, hl, rfl⟩ := clearPendingReboot_ok_inv hok
    intro kv hkv hst
    rcases mem_setRun hkv with h | h
    · subst h; exact absurd hst running_ne_pendingReboot
    · exact hinv kv h hst
  | opMarkRunCompleted t rid =>
    obtain ⟨rec, hl, rfl⟩ := markRunCompleted_ok_inv hok
    intro kv hkv hst
    rcases mem_setRun (mem_pruneHistory hkv) with h | h
    · subst h; exact absurd hst completed_ne_pendingReboot
    · exact hinv kv h hst

/-- C2 (amended): in every store state reachable by operations in which
`MarkPendingReboot` is only invoked with a non-empty boot mode (as the
engine's `handleReboot` always does), `status == pending_reboot` implies
that `pending_reboot_next` and `pending_boot_mode` are set; and
`ClearPendingReboot` resets both fields to empty and the status to
`running`. The converse implication does not hold: `MarkStepFailed` on a
suspended run (OS reboot request failure) leaves both fields set with
status `failed`. -/
theorem pendingReboot_forward_invariant :
    (∀ s, Reachable s → rebootFieldsInv s)
    ∧ (∀ (s : StoreState) (t : Nat) (runID : String) (rec : RunRecord),
        lookupRun s runID = some rec →
        ∃ s', clearPendingReboot s t runID = .ok s'
          ∧ lookupRun s' runID = some
              { rec with
                status := StatusRunning, pendingRebootNext := none,
                pendingBootMode := "", resumeDelaySeconds := 0,
                updatedAt := t }) := by
  constructor
  · intro s hs
    induction hs with
    | init => intro kv hkv _; cases hkv
    | step hr hg hok ih => exact rebootFieldsInv_step ih hg hok
  · intro s t runID rec h
    refine ⟨_, ?_, lookupRun_setRun_self h⟩
    unfold clearPendingReboot
    rw [h]

/-- A pending-reboot record reached from the empty store by `StartRun`
followed by `MarkPendingReboot` with boot mode `"safe"`. -/
def c2wRec : RunRecord :=
  { freshRun 0 "r" "w" 1 with
    status := StatusPendingReboot, pendingRebootNext := some 1,
    pendingBootMode := "safe", resumeDelaySeconds := 3, updatedAt := 1 }

theorem pendingReboot_forward_invariant_witness :
    (c2wRec.pendingRebootNext.isSome ∧ c2wRec.pendingBootMode ≠ "")
    ∧ (∃ s', clearPendingReboot [("r", c2wRec)] 7 "r" = .ok s'
        ∧ lookupRun s' "r" = some
            { c2wRec with
              status := StatusRunning, pendingRebootNext := none,
              pendingBootMode := "", resumeDelaySeconds := 0,
              updatedAt := 7 }) := by
  have r1 : Reachable [("r", freshRun 0 "r" "w" 1)] :=
    @Reachable.step [] [("r", freshRun 0 "r" "w" 1)]
      (.opStartRun 0 "r" "w" 1) Reachable.init trivial (by decide)
  have r2 : Reachable [("r", c2wRec)] :=
    @Reachable.step [("r", freshRun 0 "r" "w" 1)] [("r", c2wRec)]
      (.opMarkPendingReboot 1 "r" 1 "safe" 3) r1
      (show ("safe" : String) ≠ "" from by decide) (by decide)
  exact ⟨pendingReboot_forward_invariant.1 [("r", c2wRec)] r2
      ("r", c2wRec) (by decide) (by decide),
    pendingReboot_forward_invariant.2 [("r", c2wRec)] 7 "r" c2wRec (by decide)⟩

/-! ### Claim C3 -/

/-- The store operations the engine issues for `RunWorkflow` on the
3-step reboot workflow (reboot at index 1, request succeeding), followed
by the `ClearPendingReboot` that a `ContinueWorkflow` begins with. -/
def c3ops : List StoreOp :=
  [.opStartRun 0 "r" "w" 3,
   .opMarkStepPending 1 "r" 0 "s0",
   .opMarkStepComplete 2 "r" 0,
   .opMarkStepPending 3 "r" 1 "s1",
   .opMarkPendingReboot 4 "r" 2 "normal" 0,
   .opMarkStepComplete 5 "r" 1,
   .opClearPendingReboot 6 "r"]

/-- The record after `c3ops`: `current_step_index` is 1. -/
def c3RecBefore : RunRecord :=
  { runID := "r", workflowName := "w", status := StatusRunning,
    startedAt := 0, updatedAt := 6, currentStepIndex := 1,
    pendingRebootNext := none, pendingBootMode := "",
    steps := [{ stepID := "s0", status := StatusCompleted, error := "" },
              { stepID := "s1", status := StatusCompleted, error := "" },
              { stepID := "", status := "", error := "" }],
    lastError := "", resumeDelaySeconds := 0, totalSteps := 3 }

/-- The record after the next operation, `MarkStepPending` at index 0 —
exactly what `ContinueWorkflow` with in-range start index 0 issues next:
`current_step_index` has dropped to 0. -/
def c3RecAfter : RunRecord :=
  { c3RecBefore with
    updatedAt := 7, currentStepIndex := 0,
    steps := [{ stepID := "s0", status := StatusPending, error := "" },
              { stepID := "s1", status := StatusCompleted, error := "" },
              { stepID := "", status := "", error := "" }] }

/-- C3 is refuted on the code: after a reboot suspension,
`ContinueWorkflow` accepts any in-range start index, and its first
`MarkStepPending` call overwrites `current_step_index` with it — from one
state to the next the index decreases from 1 to 0. -/
theorem currentStepIndex_decrease_cex :
    applyOps [] c3ops = .ok [("r", c3RecBefore)]
    ∧ applyOp [("r", c3RecBefore)] (.opMarkStepPending 7 "r" 0 "s0") =
        .ok [("r", c3RecAfter)]
    ∧ c3RecAfter.currentStepIndex < c3RecBefore.currentStepIndex := by
  decide

/-- Side condition under which an operation cannot lower
`current_step_index`: a `MarkStepPending`/`MarkStepComplete` must not
target an index below the run's current one (engine executions satisfy
this when every `ContinueWorkflow` resumes from the stored
`pending_reboot_next`, which is one past the last completed index). -/
def opIndexLB : StoreOp → StoreState → Prop
  | .opMarkStepPending _ rid idx _, s =>
    ∀ rec, lookupRun s rid = some rec → rec.currentStepIndex ≤ idx
  | .opMarkStepComplete _ rid idx, s =>
    ∀ rec, lookupRun s rid = some rec → rec.currentStepIndex ≤ idx
  | _, _ => True

/-- C3 (amended): `current_step_index` never decreases across any store
operation other than a `MarkStepPending`/`MarkStepComplete` aimed at an
index below the current one; `ContinueWorkflow` with a startIndex below
the current index (allowed by its range check) is exactly the call that
violates this and decreases the index. -/
theorem currentStepIndex_monotone (s : StoreState) (op : StoreOp)
    (s' : StoreState) (hnd : keysNodup s) (hok : applyOp s op = .ok s')
    (hlb : opIndexLB op s) (id : String) (rec rec' : RunRecord)
    (h : lookupRun s id = some rec) (h' : lookupRun s' id = some rec') :
    rec.currentStepIndex ≤ rec'.currentStepIndex := by
  cases op with
  | opStartRun t rid wn n =>
    obtain ⟨hnone, rfl⟩ := startRun_ok_inv hok
    rw [lookupRun_append_left _ h] at h'
    obtain rfl := Option.some.inj h'
    exact le_refl _
  | opMarkStepPending t rid i sid =>
    obtain ⟨rec₀, hl, hb1, hb2, rfl⟩ := markStepPending_ok_inv hok
    by_cases he : id = rid
    · subst he
      obtain rfl := Option.some.inj (hl.symm.trans h)
      rw [lookupRun_setRun_self h] at h'
      obtain rfl := Option.some.inj h'
      exact hlb _ h
    · rw [lookupRun_setRun_ne he, h] at h'
      obtain rfl := Option.some.inj h'
      exact le_refl _
  | opMarkStepComplete t rid i =>
    obtain ⟨rec₀, hl, hb1, hb2, rfl⟩ := markStepComplete_ok_inv hok
    by_cases he : id = rid
    · subst he
      obtain rfl := Option.some.inj (hl.symm.trans h)
      rw [lookupRun_setRun_self h] at h'
      obtain rfl := Option.some.inj h'
      exact hlb _ h
    · rw [lookupRun_setRun_ne he, h] at h'
      obtain rfl := Option.some.inj h'
      exact le_refl _
  | opMarkStepFailed t rid i m =>
    obtain ⟨rec₀, hl, hb1, hb2, rfl⟩ := markStepFailed_ok_inv hok
    rcases mem_setRun (mem_pruneHistory (lookupRun_mem h')) with heq | hmem
    · rw [Prod.mk.injEq] at heq
      obtain ⟨rfl, rfl⟩ := heq
      obtain rfl := Option.some.inj (hl.symm.trans h)
      exact le_refl _
    · obtain rfl := Option.some.inj ((lookupRun_eq_of_mem_nodup hnd hmem).symm.trans h)
      exact le_refl _
  | opMarkPendingReboot t rid nx bm d =>
    obtain ⟨rec₀, hl, rfl⟩ := markPendingReboot_ok_inv hok
    by_cases he : id = rid
    · subst he
      obtain rfl := Option.some.inj (hl.symm.trans h)
      rw [lookupRun_setRun_self h] at h'
      obtain rfl := Option.some.inj h'
      exact le_refl _
    · rw [lookupRun_setRun_ne he, h] at h'
      obtain rfl := Option.some.inj h'
      exact le_refl _
  | opClearPendingReboot t rid =>
    obtain ⟨rec₀, hl, rfl⟩ := clearPendingReboot_ok_inv hok
    by_cases he : id = rid
    · subst he
      obtain rfl := Option.some.inj (hl.symm.trans h)
      rw [lookupRun_setRun_self h] at h'
      obtain rfl := Option.some.inj h'
      exact le_refl _
    · rw [lookupRun_setRun_ne he, h] at h'
      obtain rfl := Option.some.inj h'
      exact le_refl _
  | opMarkRunCompleted t rid =>
    obtain ⟨rec₀, hl, rfl⟩ := markRunCompleted_ok_inv hok
    rcases mem_setRun (mem_pruneHistory (lookupRun_mem h')) with heq | hmem
    · rw [Prod.mk.injEq] at heq
      obtain ⟨rfl, rfl⟩ := heq
      obtain rfl := Option.some.inj (hl.symm.trans h)
      exact le_refl _
    · obtain rfl := Option.some.inj ((lookupRun_eq_of_mem_nodup hnd hmem).symm.trans h)
      exact le_refl _

/-- `recW` with `current_step_index` already at 1. -/
def recIdx1 : RunRecord := { recW with currentStepIndex := 1 }

/-- `recIdx1` after `MarkStepComplete` at index 1 (time 5). -/
def recIdx1Done : RunRecord :=
  { recIdx1 with
    updatedAt := 5,
    steps := [{ stepID := "", status := "", error := "" },
              { stepID := "", status := StatusCompleted, error := "" }] }

theorem currentStepIndex_monotone_witness :
    recIdx1.currentStepIndex ≤ recIdx1Done.currentStepIndex :=
  currentStepIndex_monotone [("r", recIdx1)] (.opMarkStepComplete 5 "r" 1)
    [("r", recIdx1Done)] (by unfold keysNodup; decide) (by decide)
    (fun rec hrec => by
      have he : recIdx1 = rec := Option.some.inj
        ((by decide : lookupRun [("r", recIdx1)] "r" = some recIdx1).symm.trans hrec)
      rw [← he]
      decide)
    "r" recIdx1 recIdx1Done (by decide) (by decide)

/-! ### Claim C5 -/

/-- Invariant of `pruneHistoryLocked`'s first loop once a candidate with
a non-empty key is held: the fold result keys a terminal entry (or is
the unchanged start pair), its time bounds every terminal time seen, and
the time never goes down. -/
theorem findLatest_go : ∀ (l : List (String × RunRecord)) (lk : String) (lt : Nat),
    (∀ kv ∈ l, kv.1 ≠ "") → lk ≠ "" →
    (findLatest l lk lt).1 ≠ ""
    ∧ lt ≤ (findLatest l lk lt).2
    ∧ (∀ kv ∈ l, isTerminal kv.2 → kv.2.updatedAt ≤ (findLatest l lk lt).2)
    ∧ (findLatest l lk lt = (lk, lt)
       ∨ ∃ kv, kv ∈ l ∧ isTerminal kv.2 ∧ kv.1 = (findLatest l lk lt).1
           ∧ kv.2.updatedAt = (findLatest l lk lt).2)
  | [], lk, lt, hne, hlk =>
    ⟨hlk, le_refl _, fun kv h => absurd h (List.not_mem_nil _), Or.inl rfl⟩
  | (k, v) :: rest, lk, lt, hne, hlk => by
    have hk : k ≠ "" := hne (k, v) (List.mem_cons_self _ _)
    have hrest : ∀ kv ∈ rest, kv.1 ≠ "" :=
      fun kv h => hne kv (List.mem_cons_of_mem _ h)
    by_cases hc : isTerminal v ∧ (v.updatedAt > lt ∨ lk = "")
    · rw [findLatest, if_pos hc]
      obtain ⟨h1, h2, h3, h4⟩ := findLatest_go rest k v.updatedAt hrest hk
      have hvlt : lt < v.updatedAt := by
        rcases hc.2 with h | h
        · exact h
        · exact absurd h hlk
      refine ⟨h1, le_of_lt (lt_of_lt_of_le hvlt h2), ?_, ?_⟩
      · intro kv hm ht
        rcases List.mem_cons.1 hm with rfl | hm'
        · exact h2
        · exact h3 kv hm' ht
      · rcases h4 with he | ⟨kv, hm, ht, hkv1, hkv2⟩
        · exact Or.inr ⟨(k, v), List.mem_cons_self _ _, hc.1, by rw [he], by rw [he]⟩
        · exact Or.inr ⟨kv, List.mem_cons_of_mem _ hm, ht, hkv1, hkv2⟩
    · rw [findLatest, if_neg hc]
      obtain ⟨h1, h2, h3, h4⟩ := findLatest_go rest lk lt hrest hlk
      refine ⟨h1, h2, ?_, ?_⟩
      · intro kv hm ht
        rcases List.mem_cons.1 hm with rfl | hm'
        · have hnlt : ¬ (v.updatedAt > lt) := fun hgt => hc ⟨ht, Or.inl hgt⟩
          exact le_trans (Nat.le_of_not_lt hnlt) h2
        · exact h3 kv hm' ht
      · rcases h4 with he | ⟨kv, hm, ht, hkv1, hkv2⟩
        · exact Or.inl he
        · exact Or.inr ⟨kv, List.mem_cons_of_mem _ hm, ht, hkv1, hkv2⟩

/-- The first loop started from `("", 0)` on a list of non-empty keys:
either no entry is terminal and the fold returns `("", 0)`, or the fold
keys a terminal entry of maximal update time. -/
theorem findLatest_init : ∀ (l : List (String × RunRecord)),
    (∀ kv ∈ l, kv.1 ≠ "") →
    ((∀ kv ∈ l, ¬ isTerminal kv.2) ∧ findLatest l "" 0 = ("", 0))
    ∨ ((∃ kv, kv ∈ l ∧ isTerminal kv.2 ∧ kv.1 = (findLatest l "" 0).1
          ∧ kv.2.updatedAt = (findLatest l "" 0).2)
       ∧ (∀ kv ∈ l, isTerminal kv.2 → kv.2.updatedAt ≤ (findLatest l "" 0).2))
  | [], _ => Or.inl ⟨fun kv h => absurd h (List.not_mem_nil _), rfl⟩
  | (k, v) :: rest, hne => by
    have hk : k ≠ "" := hne (k, v) (List.mem_cons_self _ _)
    have hrest : ∀ kv ∈ rest, kv.1 ≠ "" :=
      fun kv h => hne kv (List.mem_cons_of_mem _ h)
    by_cases hterm : isTerminal v
    · have hc : isTerminal v ∧ (v.updatedAt > 0 ∨ ("" : String) = "") :=
        ⟨hterm, Or.inr rfl⟩
      rw [findLatest, if_pos hc]
      obtain ⟨h1, h2, h3, h4⟩ := findLatest_go rest k v.updatedAt hrest hk
      right
      constructor
      · rcases h4 with he | ⟨kv, hm, ht, hkv1, hkv2⟩
        · exact ⟨(k, v), List.mem_cons_self _ _, hterm, by rw [he], by rw [he]⟩
        · exact ⟨kv, List.mem_cons_of_mem _ hm, ht, hkv1, hkv2⟩
      · intro kv hm ht
        rcases List.mem_cons.1 hm with rfl | hm'
        · exact h2
        · exact h3 kv hm' ht
    · have hc : ¬ (isTerminal v ∧ (v.updatedAt > 0 ∨ ("" : String) = "")) :=
        fun hcc => hterm hcc.1
      rw [findLatest, if_neg hc]
      rcases findLatest_init rest hrest with ⟨ha, hb⟩ | ⟨ha, hb⟩
      · left
        refine ⟨?_, hb⟩
        intro kv hm
        rcases List.mem_cons.1 hm with rfl | hm'
        · exact hterm
        · exact ha kv hm'
      · right
        obtain ⟨kv, hm, ht, hkv1, hkv2⟩ := ha
        refine ⟨⟨kv, List.mem_cons_of_mem _ hm, ht, hkv1, hkv2⟩, ?_⟩
        intro kv' hm' ht'
        rcases List.mem_cons.1 hm' with rfl | hm''
        · exact absurd ht' hterm
        · exact hb kv' hm'' ht'

/-- With pairwise-distinct keys, filtering by a predicate that holds for
one entry and forces its key singles out that entry. -/
theorem filter_eq_singleton_of_unique {s : StoreState}
    {P : String × RunRecord → Bool} {q : String × RunRecord}
    (hnd : keysNodup s) (hmem : q ∈ s) (hP : P q = true)
    (huniq : ∀ kv ∈ s, P kv = true → kv.1 = q.1) :
    s.filter P = [q] := by
  induction s with
  | nil => cases hmem
  | cons kv rest ih =>
    have hnd' : keysNodup rest := (List.nodup_cons.1 hnd).2
    have hhead : kv.1 ∉ rest.map Prod.fst := (List.nodup_cons.1 hnd).1
    rcases List.mem_cons.1 hmem with rfl | hmem'
    · rw [List.filter_cons, if_pos hP]
      have hnil : rest.filter P = [] := by
        rw [List.filter_eq_nil_iff]
        intro kv' hm' hP'
        exact hhead (by
          rw [← huniq kv' (List.mem_cons_of_mem _ hm') hP']
          exact List.mem_map.2 ⟨kv', hm', rfl⟩)
      rw [hnil]
    · have hPn : ¬ (P kv = true) := fun hPk => hhead (by
        rw [huniq kv (List.mem_cons_self _ _) hPk]
        exact List.mem_map.2 ⟨q, hmem', rfl⟩)
      rw [List.filter_cons, if_neg hPn]
      exact ih hnd' hmem' (fun kv' h h' => huniq kv' (List.mem_cons_of_mem _ h) h')

/-- C5 (amended): provided no run id is the empty string (the sentinel
value of the pruning loop's `latestKey`), pruning retains every
non-terminal record unchanged, adds nothing, and — whenever any terminal
record exists — leaves exactly one terminal record, one of maximal
`updated_at` among the terminal records (one survivor on ties). With an
empty-string run id the survivor can fail to be maximal (see the
counterexample). -/
theorem pruneHistory_spec (s : StoreState) (hnd : keysNodup s)
    (hne : ∀ kv ∈ s, kv.1 ≠ "") :
    (∀ kv ∈ s, ¬ isTerminal kv.2 → kv ∈ pruneHistory s)
    ∧ (∀ kv ∈ pruneHistory s, kv ∈ s)
    ∧ (∀ kvt ∈ s, isTerminal kvt.2 →
        ∃ q, q ∈ s ∧ isTerminal q.2
          ∧ (pruneHistory s).filter (fun kv => isTerminal kv.2) = [q]
          ∧ (∀ kv ∈ s, isTerminal kv.2 → kv.2.updatedAt ≤ q.2.updatedAt)) := by
  refine ⟨?_, fun kv h => mem_pruneHistory h, ?_⟩
  · intro kv hm hterm
    simp only [pruneHistory]
    refine List.mem_filter.2 ⟨hm, ?_⟩
    simp only [Bool.or_eq_true, Bool.not_eq_true']
    exact Or.inl (by
      revert hterm
      cases isTerminal kv.2 with
      | false => intro _; rfl
      | true => intro hterm; exact absurd rfl hterm)
  · intro kvt hmt htt
    rcases findLatest_init s hne with ⟨ha, -⟩ | ⟨⟨q, hm0, ht0, hq1, hq2⟩, hb⟩
    · exact absurd htt (ha kvt hmt)
    · refine ⟨q, hm0, ht0, ?_, ?_⟩
      · simp only [pruneHistory]
        rw [List.filter_filter]
        apply filter_eq_singleton_of_unique hnd hm0
        · simp only [Bool.and_eq_true, Bool.or_eq_true, Bool.not_eq_true', beq_iff_eq]
          exact ⟨ht0, Or.inr hq1⟩
        · intro kv hm hP
          simp only [Bool.and_eq_true, Bool.or_eq_true, Bool.not_eq_true', beq_iff_eq] at hP
          obtain ⟨hPt, hPk⟩ := hP
          rcases hPk with hfalse | hkey
          · rw [hPt] at hfalse
            cases hfalse
          · rw [hkey, hq1]
      · intro kv hm ht
        rw [hq2]
        exact hb kv hm ht

/-- The `""`-keyed run after the `c5ops` trace marks it completed at
time 3. -/
def c5RecE : RunRecord :=
  { runID := "", workflowName := "w", status := StatusCompleted,
    startedAt := 0, updatedAt := 3, currentStepIndex := 0,
    pendingRebootNext := none, pendingBootMode := "", steps := [],
    lastError := "", resumeDelaySeconds := 0, totalSteps := 0 }

/-- The `"b"` run, completed at time 2 (older than `c5RecE`). -/
def c5RecB : RunRecord :=
  { runID := "b", workflowName := "w", status := StatusCompleted,
    startedAt := 1, updatedAt := 2, currentStepIndex := 0,
    pendingRebootNext := none, pendingBootMode := "", steps := [],
    lastError := "", resumeDelaySeconds := 0, totalSteps := 0 }

/-- A store-operation trace reaching the pruning bug: a run with the
empty string as id completes last. -/
def c5ops : List StoreOp :=
  [.opStartRun 0 "" "w" 0, .opStartRun 1 "b" "w" 0,
   .opMarkRunCompleted 2 "b", .opMarkRunCompleted 3 ""]

/-- C5 is refuted on the code: when a run keyed by the empty string is
the most recently updated terminal record, the pruning loop's
`latestKey == ""` sentinel lets an older terminal record steal the
survivor slot — pruning deletes the most recent terminal record
(`updated_at` 3) and keeps the older one (`updated_at` 2), both on the
pure `pruneHistoryLocked` state and through the triggering
`MarkRunCompleted` trace. -/
theorem pruneHistory_empty_key_cex :
    applyOps [] c5ops = .ok [("b", c5RecB)]
    ∧ isTerminal c5RecE ∧ isTerminal c5RecB
    ∧ c5RecB.updatedAt < c5RecE.updatedAt
    ∧ pruneHistory [("", c5RecE), ("b", c5RecB)] = [("b", c5RecB)] := by
  decide

/-- Three runs with distinct non-empty ids: two terminal (times 3 and 9)
and one running. -/
def recTermA : RunRecord :=
  { recW with runID := "a", status := StatusFailed, updatedAt := 3 }

def recRunB : RunRecord := { recW with runID := "b", updatedAt := 4 }

def recTermC : RunRecord :=
  { recW with runID := "c", status := StatusCompleted, updatedAt := 9 }

theorem pruneHistory_spec_witness :
    ∃ q, q ∈ ([("a", recTermA), ("b", recRunB), ("c", recTermC)] : StoreState)
      ∧ isTerminal q.2
      ∧ (pruneHistory [("a", recTermA), ("b", recRunB), ("c", recTermC)]).filter
          (fun kv => isTerminal kv.2) = [q]
      ∧ (∀ kv ∈ ([("a", recTermA), ("b", recRunB), ("c", recTermC)] : StoreState),
          isTerminal kv.2 → kv.2.updatedAt ≤ q.2.updatedAt) :=
  (pruneHistory_spec [("a", recTermA), ("b", recRunB), ("c", recTermC)]
    (by unfold keysNodup; decide) (by decide)).2.2
    ("a", recTermA) (by decide) (by decide)

/-! ### Claim C1 -/

theorem stepRecord_default :
    (default : StepRecord) = { stepID := "", status := "", error := "" } := rfl

/-- Pruning a single-run store whose run has just been completed keeps
that run: the fold selects it and the filter retains it. -/
theorem pruneHistory_single (rid : String) (r : RunRecord)
    (h : r.status = "completed") :
    pruneHistory [(rid, r)] = [(rid, r)] := by
  have ht : isTerminal r = true := by
    simp [isTerminal, h, StatusCompleted]
  simp [pruneHistory, findLatest, ht]

/-- The run record after `RunWorkflow` halts for the reboot at index 1:
steps 0 and 1 completed, run suspended in `pending_reboot` with
`pending_reboot_next = 2`. -/
def c1Suspended (rid nm : String) (s0 s1 : Step) : RunRecord :=
  { runID := rid, workflowName := nm, status := StatusPendingReboot,
    startedAt := 0, updatedAt := 5, currentStepIndex := 1,
    pendingRebootNext := some 2,
    pendingBootMode := if s1.safeMode then "safe" else "normal",
    steps := [{ stepID := s0.id, status := StatusCompleted, error := "" },
              { stepID := s1.id, status := StatusCompleted, error := "" },
              { stepID := "", status := "", error := "" }],
    lastError := "", resumeDelaySeconds := s1.resumeDelaySeconds,
    totalSteps := 3 }

/-- The run record after `ContinueWorkflow` from index 2 completes the
run at clock `t`. -/
def c1Completed (rid nm : String) (s0 s1 s2 : Step) (t : Nat) : RunRecord :=
  { runID := rid, workflowName := nm, status := StatusCompleted,
    startedAt := 0, updatedAt := t + 3, currentStepIndex := 2,
    pendingRebootNext := none, pendingBootMode := "",
    steps := [{ stepID := s0.id, status := StatusCompleted, error := "" },
              { stepID := s1.id, status := StatusCompleted, error := "" },
              { stepID := s2.id, status := StatusCompleted, error := "" }],
    lastError := "", resumeDelaySeconds := 0, totalSteps := 3 }

/-- C1: for every 3-step workflow whose step at index 1 is a reboot step
(reboot request succeeding) and whose steps 0 and 2 dispatch
successfully, `RunWorkflow` from a fresh store halts after marking steps
0 and 1 complete, returns success, and leaves the run `pending_reboot`
with `pending_reboot_next = 2`; a subsequent `ContinueWorkflow` from
index 2 (at any clock) succeeds and leaves the run `completed` with all
three step records `completed`. -/
theorem reboot_halt_and_resume (os : OS) (nm rid : String) (s0 s1 s2 : Step)
    (h1 : lowerStr s1.action = "reboot")
    (h0 : ¬ lowerStr s0.action = "reboot") (h0d : dispatch os s0 = .success)
    (h2 : ¬ lowerStr s2.action = "reboot") (h2d : dispatch os s2 = .success)
    (hrb : os.requestReboot s1.safeMode = .success) :
    ∃ s' rec, runWorkflow os rid ⟨nm, [s0, s1, s2]⟩ [] 0 = .ok s'
      ∧ lookupRun s' rid = some rec
      ∧ rec.status = StatusPendingReboot
      ∧ rec.pendingRebootNext = some 2
      ∧ rec.steps.map (fun st => st.status) = [StatusCompleted, StatusCompleted, ""]
      ∧ ∀ t, ∃ s'' rec'',
          continueWorkflow os rid ⟨nm, [s0, s1, s2]⟩ 2 s' t = .ok s''
          ∧ lookupRun s'' rid = some rec''
          ∧ rec''.status = StatusCompleted
          ∧ rec''.steps.map (fun st => st.status) =
              [StatusCompleted, StatusCompleted, StatusCompleted] := by
  have hrun : runWorkflow os rid ⟨nm, [s0, s1, s2]⟩ [] 0 =
      .ok [(rid, c1Suspended rid nm s0 s1)] := by
    simp [runWorkflow, startRun, runFromIndex, runSteps, markStepPending,
      markStepComplete, markPendingReboot, execStep, lookupRun, setRun,
      List.set, List.getD, h0, h1, h0d, hrb, stepRecord_default, c1Suspended]
  have hcont : ∀ t, continueWorkflow os rid ⟨nm, [s0, s1, s2]⟩ 2
      [(rid, c1Suspended rid nm s0 s1)] t =
      .ok [(rid, c1Completed rid nm s0 s1 s2 t)] := by
    intro t
    simp [continueWorkflow, clearPendingReboot, runFromIndex, runSteps,
      markStepPending, markStepComplete, markRunCompleted, execStep,
      lookupRun, setRun, List.set, List.getD, pruneHistory_single,
      h2, h2d, stepRecord_default, c1Suspended, c1Completed,
      StatusCompleted]
  refine ⟨[(rid, c1Suspended rid nm s0 s1)], c1Suspended rid nm s0 s1,
    hrun, by simp [lookupRun], rfl, rfl, rfl, ?_⟩
  intro t
  exact ⟨[(rid, c1Completed rid nm s0 s1 s2 t)], c1Completed rid nm s0 s1 s2 t,
    hcont t, by simp [lookupRun], rfl, rfl⟩

/-- A concrete OS oracle on which every handler and the reboot request
succeed. -/
def osAllOk : OS :=
  { exec := fun _ => .success, requestReboot := fun _ => .success }

theorem reboot_halt_and_resume_witness :
    ∃ s' rec, runWorkflow osAllOk "r"
        ⟨"w", [{ id := "a", action := "sleep", safeMode := false, resumeDelaySeconds := 0 },
               { id := "b", action := "reboot", safeMode := false, resumeDelaySeconds := 0 },
               { id := "c", action := "verify", safeMode := false, resumeDelaySeconds := 0 }]⟩
        [] 0 = .ok s'
      ∧ lookupRun s' "r" = some rec
      ∧ rec.status = StatusPendingReboot
      ∧ rec.pendingRebootNext = some 2
      ∧ rec.steps.map (fun st => st.status) = [StatusCompleted, StatusCompleted, ""]
      ∧ ∀ t, ∃ s'' rec'',
          continueWorkflow osAllOk "r"
            ⟨"w", [{ id := "a", action := "sleep", safeMode := false, resumeDelaySeconds := 0 },
                   { id := "b", action := "reboot", safeMode := false, resumeDelaySeconds := 0 },
                   { id := "c", action := "verify", safeMode := false, resumeDelaySeconds := 0 }]⟩
            2 s' t = .ok s''
          ∧ lookupRun s'' "r" = some rec''
          ∧ rec''.status = StatusCompleted
          ∧ rec''.steps.map (fun st => st.status) =
              [StatusCompleted, StatusCompleted, StatusCompleted] :=
  reboot_halt_and_resume osAllOk "w" "r"
    { id := "a", action := "sleep", safeMode := false, resumeDelaySeconds := 0 }
    { id := "b", action := "reboot", safeMode := false, resumeDelaySeconds := 0 }
    { id := "c", action := "verify", safeMode := false, resumeDelaySeconds := 0 }
    (by decide) (by decide) (by decide) (by decide) (by decide) (by decide)

end Autostep
